import Mathlib

/-!
Shallow embedding of the core gameplay logic of the `bevy_game_jam_6`
arena game (creature state machine, punch combat resolver, explosion
area-effect resolver, spawner health) together with proofs about the
claims of the specification.

Conventions of the embedding:
* `f32` arithmetic is modelled by exact rational arithmetic (`ℚ`), so every
  definition is executable and every concrete statement decidable.
* Euclidean distance involves a square root, which is irrational in
  general; systems that consume a distance therefore take the distance as
  an explicit argument, and theorems relate it to the squared norm of the
  position offset through the predicate `IsDist` (`0 ≤ d` and
  `d * d = ‖target - center‖²`).  Concrete witnesses use axis-aligned
  points so the supplied distance is exactly the Euclidean one.
* Bevy `Timer` values in `TimerMode::Once` are modelled by `GameTimer`:
  `tick` adds the delta and clamps the elapsed time at the duration,
  `finished` holds once the elapsed time has reached the duration.
* ECS component presence (behaviour tags such as `Hunting`, bundles of
  spawned entities) is modelled by explicit `Bool` fields and by lists of
  `ComponentKind` values; randomness (`gen_range`) is modelled by passing
  the drawn sample as an argument, bounded by the source's range in the
  theorems.
-/

namespace BevyJam

/-- Bevy `Timer` in `TimerMode::Once`: elapsed seconds and total duration.
`tick` saturates the elapsed time at the duration, and `finished` holds
exactly when the elapsed time has reached the duration. -/
structure GameTimer where
  elapsed : ℚ
  duration : ℚ
deriving DecidableEq, Repr

/-- Advance a timer by `dt` seconds (`Timer::tick`), clamping at the duration. -/
def GameTimer.tick (t : GameTimer) (dt : ℚ) : GameTimer :=
  { t with elapsed := min (t.elapsed + dt) t.duration }

/-- Whether the timer has finished (`Timer::finished`). -/
def GameTimer.finished (t : GameTimer) : Bool :=
  t.duration ≤ t.elapsed

/-- Reset the timer's elapsed time to zero (`Timer::reset`). -/
def GameTimer.reset (t : GameTimer) : GameTimer :=
  { t with elapsed := 0 }

/-- Fresh timer of the given duration (`Timer::from_seconds`). -/
def GameTimer.fromSeconds (d : ℚ) : GameTimer :=
  ⟨0, d⟩

/-- Planar vector with rational coordinates, modelling glam's `Vec2`. -/
structure Vec2 where
  x : ℚ
  y : ℚ
deriving DecidableEq, Repr

/-- Componentwise vector addition. -/
def Vec2.add (a b : Vec2) : Vec2 :=
  ⟨a.x + b.x, a.y + b.y⟩

/-- Componentwise vector subtraction. -/
def Vec2.sub (a b : Vec2) : Vec2 :=
  ⟨a.x - b.x, a.y - b.y⟩

/-- Scalar multiplication of a vector. -/
def Vec2.smul (c : ℚ) (v : Vec2) : Vec2 :=
  ⟨c * v.x, c * v.y⟩

instance : Add Vec2 :=
  ⟨Vec2.add⟩

instance : Sub Vec2 :=
  ⟨Vec2.sub⟩

instance : SMul ℚ Vec2 :=
  ⟨Vec2.smul⟩

theorem Vec2.add_def (a b : Vec2) : a + b = ⟨a.x + b.x, a.y + b.y⟩ :=
  rfl

theorem Vec2.sub_def (a b : Vec2) : a - b = ⟨a.x - b.x, a.y - b.y⟩ :=
  rfl

theorem Vec2.smul_def (c : ℚ) (v : Vec2) : c • v = ⟨c * v.x, c * v.y⟩ :=
  rfl

/-- Zero vector. -/
def Vec2.zero : Vec2 :=
  ⟨0, 0⟩

/-- Squared Euclidean norm of a planar vector. -/
def Vec2.normSq (v : Vec2) : ℚ :=
  v.x * v.x + v.y * v.y

/-- The rational `d` is the Euclidean distance between `p` and `q`:
it is nonnegative and its square is the squared norm of the offset. -/
def IsDist (p q : Vec2) (d : ℚ) : Prop :=
  0 ≤ d ∧ d * d = (q - p).normSq

instance (p q : Vec2) (d : ℚ) : Decidable (IsDist p q d) :=
  inferInstanceAs (Decidable (And _ _))

/-- Rust's `f32::clamp(lo, hi)`: raise to `lo`, then cap at `hi`. -/
def clampQ (v lo hi : ℚ) : ℚ :=
  min (max v lo) hi

/-- glam's `normalize_or_zero`, with the (generally irrational) norm of `v`
supplied as an argument: the zero vector when the norm is zero, otherwise
`v` scaled by the reciprocal norm. -/
def normalizeOrZeroWith (v : Vec2) (norm : ℚ) : Vec2 :=
  if norm = 0 then Vec2.zero else (1 / norm) • v

/-! ### Explosion component (`src/game/explosion.rs`) -/

/-- Base impulse constant `EXPLOSION_FORCE` of the explosion force system. -/
def EXPLOSION_FORCE : ℚ :=
  12000

/-- Default explosion size used by `EXPLOSION_RADIUS`. -/
def EXPLOSION_RADIUS : ℚ :=
  70

/-- Lifetime duration computed by `Explosion::new`: the size is raised to at
least `1.0`, mapped through `((radius - 50)/60).clamp(0,1)`, and the duration
is `0.05 + t * (0.3 - 0.1)` seconds. -/
def explosionDuration (size : ℚ) : ℚ :=
  let radius := max size 1
  let t := clampQ ((radius - 50) / 60) 0 1
  0.05 + t * (0.3 - 0.1)

/-- The `Explosion` component: lifetime timer and the stored size
(field `.1`, used as the force/damage radius). -/
structure Explosion where
  timer : GameTimer
  radius : ℚ
deriving DecidableEq, Repr

/-- `Explosion::new(size)`: a once-timer of `explosionDuration size` seconds,
storing the raw `size` as the radius field. -/
def Explosion.new (size : ℚ) : Explosion :=
  ⟨GameTimer.fromSeconds (explosionDuration size), size⟩

/-- Largest lifetime the duration map can produce (attained from size `110` up). -/
def explosionMaxDuration : ℚ :=
  explosionDuration 110

/-- Scalar strength computed by `explosion_force_system` for a target at
distance `dist` from an explosion of radius `radius`:
`EXPLOSION_FORCE * (1 - (dist / radius).clamp(0, 1))`. -/
def explosionStrength (radius dist : ℚ) : ℚ :=
  EXPLOSION_FORCE * (1 - clampQ (dist / radius) 0 1)

/-- Impulse vector added by `explosion_force_system` to a single target:
inside the radius it is the unit outward direction
(`normalize_or_zero(target - center)`) scaled by the strength; outside the
radius nothing is added. -/
def explosionImpulseDelta (explosionPos targetPos : Vec2) (dist radius : ℚ) : Vec2 :=
  if dist ≤ radius then
    explosionStrength radius dist • normalizeOrZeroWith (targetPos - explosionPos) dist
  else
    Vec2.zero

/-- One pass of `explosion_animation` over the explosion list: every
explosion's lifetime timer is ticked by the frame delta (the sprite frame
index it also updates is purely visual). -/
def explosionAnimationPass (dt : ℚ) (es : List Explosion) : List Explosion :=
  es.map fun e => { e with timer := e.timer.tick dt }

/-- One pass of `despawn_explosion` over the explosion list in iteration
order: each explosion's timer is ticked; a finished explosion is despawned
and the loop continues, but the first unfinished explosion makes the system
`return`, leaving all later explosions untouched. -/
def despawnExplosionPass (dt : ℚ) : List Explosion → List Explosion
  | [] => []
  | e :: rest =>
    let e' : Explosion := { e with timer := e.timer.tick dt }
    if e'.timer.finished then despawnExplosionPass dt rest
    else e' :: rest

/-- One frame of the explosion timer systems: the animation pass over all
explosions followed by the despawn pass. -/
def explosionFrame (dt : ℚ) (es : List Explosion) : List Explosion :=
  despawnExplosionPass dt (explosionAnimationPass dt es)

/-! ### Component bundles and the explosion force query
(`src/game/explosion.rs`, bundle constructors of enemy / food / player /
spawner / explosion) -/

/-- Kinds of ECS components appearing in the spawn bundles of the game. -/
inductive ComponentKind
  | nameTag
  | enemyMarker
  | hungryComp
  | rigidBody
  | lockedAxes
  | colliderComp
  | velocityComp
  | dampingComp
  | colliderMassProps
  | spriteComp
  | transformComp
  | externalImpulse
  | activeEvents
  | explosionComp
  | sensorComp
  | stateScoped
  | playerMarker
  | foodComp
  | spawnerComp
  | spawnerHealth
  | cursorComp
  | punchState
deriving DecidableEq, Repr, BEq

/-- Components of the bundle returned by `enemy(..)` in `src/game/enemy.rs`. -/
def enemyBundle : List ComponentKind :=
  [.nameTag, .enemyMarker, .hungryComp, .rigidBody, .lockedAxes, .colliderComp,
   .velocityComp, .dampingComp, .colliderMassProps, .spriteComp, .transformComp,
   .externalImpulse, .activeEvents]

/-- Components of the bundle returned by `food(..)` in `src/game/food.rs`. -/
def foodBundle : List ComponentKind :=
  [.nameTag, .foodComp, .transformComp, .rigidBody, .colliderComp,
   .velocityComp, .spriteComp]

/-- Components of the bundle returned by `spawner(..)` in `src/game/spawner.rs`. -/
def spawnerBundle : List ComponentKind :=
  [.nameTag, .spawnerComp, .transformComp, .rigidBody, .colliderComp,
   .spriteComp, .spawnerHealth, .activeEvents, .stateScoped]

/-- Components of the bundle returned by `player(..)` in `src/game/player.rs`. -/
def playerBundle : List ComponentKind :=
  [.nameTag, .playerMarker, .transformComp, .rigidBody, .colliderComp,
   .velocityComp, .spriteComp, .lockedAxes, .externalImpulse,
   .colliderMassProps, .stateScoped]

/-- Components of the bundle returned by `explosion(..)` in `src/game/explosion.rs`. -/
def explosionBundle : List ComponentKind :=
  [.nameTag, .explosionComp, .spriteComp, .colliderComp, .transformComp,
   .sensorComp, .activeEvents, .stateScoped]

/-- Whether an entity with the given components matches the affected query of
`explosion_force_system`:
`Query<(&Transform, &mut ExternalImpulse), Without<Explosion>>`. -/
def matchesExplosionAffectedQuery (b : List ComponentKind) : Bool :=
  b.contains .transformComp && b.contains .externalImpulse &&
    !(b.contains .explosionComp)

/-- Physical entity as seen by the explosion force system: its component
bundle, position, and accumulated external impulse. -/
structure PhysEntity where
  bundle : List ComponentKind
  pos : Vec2
  impulse : Vec2
deriving DecidableEq, Repr

/-- Action of `explosion_force_system` on one entity for one explosion:
entities matching the affected query accumulate the falloff impulse, all
others are untouched (they are simply absent from the query).  `dist` is the
Euclidean distance between the explosion and the entity. -/
def explosionForceOnEntity (explosionPos : Vec2) (radius : ℚ) (e : PhysEntity)
    (dist : ℚ) : PhysEntity :=
  if matchesExplosionAffectedQuery e.bundle then
    { e with impulse := e.impulse + explosionImpulseDelta explosionPos e.pos dist radius }
  else
    e

/-! ### Creature state machine (`src/game/enemy.rs`) -/

/-- Stomach capacity `STOMACH_CAP`. -/
def STOMACH_CAP : ℕ :=
  5

/-- Speed increment per eat event, `ENEMY_SPEED_DELTA`. -/
def ENEMY_SPEED_DELTA : ℚ :=
  5

/-- Bounce impulse applied away from consumed food, `BOUNCE_FORCE`. -/
def BOUNCE_FORCE : ℚ :=
  30000

/-- Behavioural and physical state of one enemy creature: the `Enemy` speed
multiplier, the `Hungry` component (appetite counter and eat-cooldown timer),
presence of the `Eating` and `Hunting` tag components, the optional
`Exploding` component's timer, and its physics data. -/
structure EnemyState where
  speed : ℚ
  hungryCount : ℕ
  eatCooldown : GameTimer
  eating : Bool
  hunting : Bool
  exploding : Option GameTimer
  velocity : Vec2
  impulse : Vec2
  pos : Vec2
deriving DecidableEq, Repr

/-- Freshly spawned enemy (`Enemy::default`, `Hungry::default`): base speed 2,
appetite 0, a `0.1` second eat-cooldown, no tags, at the given position. -/
def EnemyState.spawn (pos : Vec2) : EnemyState :=
  { speed := 2
    hungryCount := 0
    eatCooldown := GameTimer.fromSeconds 0.1
    eating := false
    hunting := false
    exploding := none
    velocity := Vec2.zero
    impulse := Vec2.zero
    pos := pos }

/-- State of one food entity: the remaining quantity `Food.0` and position. -/
structure FoodState where
  quantity : ℤ
  pos : Vec2
deriving DecidableEq, Repr

/-- The `eat` system handling one `CollisionEvent::Started` between this
enemy and this food (the enemy query only requires `Enemy` and `Hungry`, so
a `Hunting` creature still eats): skip when the food is empty or the
eat-cooldown has not finished; otherwise decrement the quantity, increment
the appetite counter, raise the speed, reset the cooldown, add the bounce
impulse away from the food, and when the counter has reached `STOMACH_CAP`
remove `Eating` and insert `Hunting`.  `dist` is the Euclidean distance
between enemy and food, feeding `normalize_or_zero`. -/
def eatEvent (e : EnemyState) (f : FoodState) (dist : ℚ) : EnemyState × FoodState :=
  if f.quantity = 0 then (e, f)
  else if !e.eatCooldown.finished then (e, f)
  else
    let e1 : EnemyState :=
      { e with
        hungryCount := e.hungryCount + 1
        speed := e.speed + ENEMY_SPEED_DELTA
        eatCooldown := e.eatCooldown.reset
        impulse := e.impulse + BOUNCE_FORCE • normalizeOrZeroWith (e.pos - f.pos) dist }
    let f1 : FoodState := { f with quantity := f.quantity - 1 }
    if STOMACH_CAP ≤ e1.hungryCount then
      ({ e1 with eating := false, hunting := true }, f1)
    else
      (e1, f1)

/-- The `tick_eat_cooldown` system for one enemy. -/
def tickEatCooldown (e : EnemyState) (dt : ℚ) : EnemyState :=
  { e with eatCooldown := e.eatCooldown.tick dt }

/-- The `start_exploding_event_handler` system processing one
`StartExplodingEvent` for this enemy: the linear velocity is scaled by `0.5`
and an `Exploding` component with a fresh once-timer is inserted, its
duration being the sample drawn by `Exploding::default` from
`gen_range(0.8..=1.4)` (passed here as `sample`).  No other component is
touched: `Hunting`, `Eating` and `Hungry` all remain. -/
def startExplodingHandler (e : EnemyState) (sample : ℚ) : EnemyState :=
  { e with
    velocity := (0.5 : ℚ) • e.velocity
    exploding := some (GameTimer.fromSeconds sample) }

/-- Request for the spawn orchestration to create an explosion. -/
structure SpawnExplosionReq where
  pos : Vec2
  size : ℚ
deriving DecidableEq, Repr

/-- The `explode` system for one enemy carrying an `Exploding` timer: tick
the timer by the frame delta; when it finishes, the creature is despawned
(`none`) and a `SpawnEvent::Explosion` is requested at its position with size
`70.0 + (raw appetite clamped to 0..5) * 12.0`, the appetite being `0` when
the `Hungry` component is absent. -/
def explodeStep (e : EnemyState) (timer : GameTimer) (hungry : Option ℕ) (dt : ℚ) :
    Option GameTimer × Option SpawnExplosionReq :=
  let t := timer.tick dt
  if t.finished then
    let raw := hungry.getD 0
    let clamped := min (max raw 0) 5
    (none, some ⟨e.pos, 70 + (clamped : ℚ) * 12⟩)
  else
    (some t, none)

/-! ### Combat resolver: punch (`src/game/cursor.rs`) -/

/-- Knockback force constant `PUNCH_FORCE`. -/
def PUNCH_FORCE : ℚ :=
  40000

/-- Radius of the glove collider and of the proximity fallback, `GLOVE_RADIUS`. -/
def GLOVE_RADIUS : ℚ :=
  20

/-- The `PunchState` component: whether a punch is active, the extension
timer (`0.2` seconds, `TimerMode::Once`), and the per-punch set of entities
already hit, modelled as a list of entity ids. -/
structure PunchState where
  isPunching : Bool
  timer : GameTimer
  hitEntities : List ℕ
deriving DecidableEq, Repr

/-- `PunchState::default`: not punching, fresh `0.2` second timer, empty hit set. -/
def PunchState.default : PunchState :=
  { isPunching := false
    timer := GameTimer.fromSeconds 0.2
    hitEntities := [] }

/-- `HashSet::insert`: report whether the entity was newly inserted, and the
updated set. -/
def insertHit (s : List ℕ) (target : ℕ) : Bool × List ℕ :=
  if s.contains target then (false, s) else (true, target :: s)

/-- Progress fraction `t = elapsed / duration` of the punch timer, as read by
both hit systems. -/
def punchProgress (s : PunchState) : ℚ :=
  s.timer.elapsed / s.timer.duration

/-- Operations the punch state machine reacts to during a run of frames:
a successful activation edge (`punch_input_system` on a fresh click), the
`move_cursor` timer advance, one glove collision event processed by
`punch_hit_system` (with the target's `Enemy` / `Food` markers and whether
it carries an `ExternalImpulse`), and one `manual_punch_check_system` pass
over the targets currently within the glove radius. -/
inductive PunchOp
  | startPunch
  | moveTick (dt : ℚ)
  | collisionHit (target : ℕ) (isEnemy isFood hasImpulse : Bool)
  | proximityPass (targets : List (ℕ × Bool))
deriving DecidableEq, Repr

/-- Whether the operation is the activation edge. -/
def PunchOp.isStart : PunchOp → Bool
  | .startPunch => true
  | _ => false

/-- Knockback emissions of one system invocation: target id and the force
magnitude it was knocked back with. -/
abbrev PunchOut := List (ℕ × ℚ)

/-- Body of the `try_punch` closure of `manual_punch_check_system` for one
in-range target: insert into the hit set, and when newly inserted and the
target has an impulse sink, apply double the punch force. -/
def tryPunch (acc : List ℕ × PunchOut) (t : ℕ × Bool) : List ℕ × PunchOut :=
  let (fresh, hits) := insertHit acc.1 t.1
  if fresh && t.2 then (hits, acc.2 ++ [(t.1, PUNCH_FORCE * 2)])
  else (hits, acc.2)

/-- The `punch_input_system` on a fresh left-click: ignored while already
punching; otherwise reset the timer, set `is_punching`, clear the hit set
(the swish sound request carries no impulse). -/
def punchInputStep (s : PunchState) : PunchState :=
  if s.isPunching then s
  else { s with isPunching := true, timer := s.timer.reset, hitEntities := [] }

/-- The timer bookkeeping of `move_cursor`: while punching, tick the
extension timer and end the punch when it finishes (cursor placement is
purely visual). -/
def moveCursorTick (s : PunchState) (dt : ℚ) : PunchState :=
  if s.isPunching then
    let t := s.timer.tick dt
    if t.finished then { s with timer := t, isPunching := false }
    else { s with timer := t }
  else s

/-- The `punch_hit_system` on one started collision involving the glove:
skip unless punching and in the extension half (`t < 0.5`); insert the
target into the hit set (skipping when already present); invalid targets
(neither enemy nor food) register in the set but get no impulse; valid
targets with an impulse sink are knocked back with `PUNCH_FORCE`. -/
def punchHitEvent (s : PunchState) (target : ℕ) (isEnemy isFood hasImpulse : Bool) :
    PunchState × PunchOut :=
  if !s.isPunching then (s, [])
  else if (1 / 2 : ℚ) ≤ punchProgress s then (s, [])
  else
    let (fresh, hits) := insertHit s.hitEntities target
    if !fresh then (s, [])
    else if !(isEnemy || isFood) then ({ s with hitEntities := hits }, [])
    else if hasImpulse then ({ s with hitEntities := hits }, [(target, PUNCH_FORCE)])
    else ({ s with hitEntities := hits }, [])

/-- The `manual_punch_check_system` pass: skip unless punching and in the
extension half, then run the `try_punch` closure over every target within
`GLOVE_RADIUS`, each newly inserted one taking `PUNCH_FORCE * 2`. -/
def manualPunchPass (s : PunchState) (targets : List (ℕ × Bool)) :
    PunchState × PunchOut :=
  if !s.isPunching then (s, [])
  else if (1 / 2 : ℚ) ≤ punchProgress s then (s, [])
  else
    let (hits, out) := targets.foldl tryPunch (s.hitEntities, [])
    ({ s with hitEntities := hits }, out)

/-- One step of the punch state machine, dispatching to the embedded
system for the given operation. -/
def punchStep (s : PunchState) : PunchOp → PunchState × PunchOut
  | .startPunch => (punchInputStep s, [])
  | .moveTick dt => (moveCursorTick s dt, [])
  | .collisionHit target isEnemy isFood hasImpulse =>
    punchHitEvent s target isEnemy isFood hasImpulse
  | .proximityPass targets => manualPunchPass s targets

/-- Run the punch state machine over a list of operations, concatenating all
knockback emissions. -/
def runPunch (s : PunchState) : List PunchOp → PunchState × PunchOut
  | [] => (s, [])
  | op :: rest =>
    let (s', out) := punchStep s op
    let (s'', outs) := runPunch s' rest
    (s'', out ++ outs)

/-- Number of knockback impulses delivered to a given target in an emission
list. -/
def countHits (out : PunchOut) (target : ℕ) : ℕ :=
  out.countP fun p => p.1 = target

/-! ### Spawner health and production (`src/game/spawner.rs`) -/

/-- Maximum spawner health `MAX_SPAWNER_HEALTH`. -/
def MAX_SPAWNER_HEALTH : ℕ :=
  8

/-- Spawner footprint constant `SPAWNER_SIZE`. -/
def SPAWNER_SIZE : ℚ :=
  50

/-- State of one spawner: the disabled flag `Spawner.1` (set when destroyed),
and the `SpawnerHealth` component (health points and damage cooldown timer).
The repeating production timer `Spawner.0` is abstracted by the
`timerFired` argument of `spawnEnemyStep`. -/
structure SpawnerState where
  disabled : Bool
  health : ℕ
  cooldown : GameTimer
  pos : Vec2
deriving DecidableEq, Repr

/-- Defaults of `Spawner` and `SpawnerHealth`: enabled, full health, a `2`
second damage cooldown. -/
def SpawnerState.spawn (pos : Vec2) : SpawnerState :=
  { disabled := false
    health := MAX_SPAWNER_HEALTH
    cooldown := GameTimer.fromSeconds 2
    pos := pos }

/-- Inner loop of `damage_spawners_from_explosions` for one explosion at
distance `dist` with radius `radius`: within `SPAWNER_SIZE / 2 + radius`,
with the cooldown finished and health positive, decrement health, reset the
cooldown, and mark the spawner disabled when health hits zero (the sprite
recolouring is purely visual). -/
def damageFromExplosion (s : SpawnerState) (dist radius : ℚ) : SpawnerState :=
  if dist ≤ SPAWNER_SIZE / 2 + radius then
    if s.cooldown.finished && decide (0 < s.health) then
      let h := s.health - 1
      { s with
        health := h
        cooldown := s.cooldown.reset
        disabled := if h = 0 then true else s.disabled }
    else s
  else s

/-- One tick of `damage_spawners_from_explosions` for one spawner: tick the
cooldown, then fold the inner loop over the live explosions, each given as a
(distance, radius) pair. -/
def damageSpawnerStep (s : SpawnerState) (dt : ℚ) (explosions : List (ℚ × ℚ)) :
    SpawnerState :=
  explosions.foldl (fun acc p => damageFromExplosion acc p.1 p.2)
    { s with cooldown := s.cooldown.tick dt }

/-- One tick of `spawn_enemy` for one spawner, with the repeating production
timer abstracted by whether it fired this tick: an enemy spawn is requested
at the offset position only when the timer fired and the spawner is not
disabled. -/
def spawnEnemyStep (s : SpawnerState) (timerFired : Bool) : Option Vec2 :=
  if timerFired && !s.disabled then some ⟨s.pos.x - SPAWNER_SIZE, s.pos.y⟩
  else none

/-- Operations driving one spawner over time: a damage tick against the
current explosion set, a production-timer tick, and the `tick_cooldown_timers`
system. -/
inductive SpawnerOp
  | damage (dt : ℚ) (explosions : List (ℚ × ℚ))
  | production (timerFired : Bool)
  | tickCooldown (dt : ℚ)
deriving DecidableEq, Repr

/-- One step of the spawner machine, returning the new state and any enemy
spawn request it emitted. -/
def spawnerStep (s : SpawnerState) : SpawnerOp → SpawnerState × Option Vec2
  | .damage dt explosions => (damageSpawnerStep s dt explosions, none)
  | .production fired => (s, spawnEnemyStep s fired)
  | .tickCooldown dt => ({ s with cooldown := s.cooldown.tick dt }, none)

/-- Run a spawner over a list of operations, collecting emitted enemy spawn
requests. -/
def runSpawner (s : SpawnerState) : List SpawnerOp → SpawnerState × List Vec2
  | [] => (s, [])
  | op :: rest =>
    let (s', out) := spawnerStep s op
    let (s'', outs) := runSpawner s' rest
    (s'', out.toList ++ outs)

/-! ### Helper lemmas -/

theorem Vec2.normSq_smul (c : ℚ) (v : Vec2) : (c • v).normSq = c * c * v.normSq := by
  simp only [Vec2.smul_def, Vec2.normSq]
  ring

theorem Vec2.smul_zero_vec (c : ℚ) : c • Vec2.zero = Vec2.zero := by
  simp [Vec2.smul_def, Vec2.zero]

theorem clampQ_mono {v w : ℚ} (lo hi : ℚ) (h : v ≤ w) :
    clampQ v lo hi ≤ clampQ w lo hi :=
  min_le_min (max_le_max h le_rfl) le_rfl

theorem clampQ_of_mem {v lo hi : ℚ} (hlo : lo ≤ v) (hhi : v ≤ hi) :
    clampQ v lo hi = v := by
  simp [clampQ, max_eq_left hlo, min_eq_left hhi]

theorem clampQ_of_le {v lo hi : ℚ} (hv : v ≤ lo) (hlohi : lo ≤ hi) :
    clampQ v lo hi = lo := by
  simp [clampQ, max_eq_right hv, min_eq_left hlohi]

theorem clampQ_nonneg {v hi : ℚ} (hhi : 0 ≤ hi) : 0 ≤ clampQ v 0 hi :=
  le_min (le_max_right v 0) hhi

theorem clampQ_le_hi {v lo hi : ℚ} : clampQ v lo hi ≤ hi :=
  min_le_right _ _

/-- The `size.max(1.0)` guard of `Explosion::new` is invisible through the
clamp: sizes at or below `1` land at the lower clamp bound either way. -/
theorem clampQ_max_one (s : ℚ) :
    clampQ ((max s 1 - 50) / 60) 0 1 = clampQ ((s - 50) / 60) 0 1 := by
  rcases le_total s 1 with h | h
  · have hs : (s - 50) / 60 ≤ (0 : ℚ) := by
      apply div_nonpos_of_nonpos_of_nonneg <;> linarith
    rw [max_eq_right h]
    rw [clampQ_of_le (by norm_num) (by norm_num), clampQ_of_le hs (by norm_num)]
  · rw [max_eq_left h]

/-! ### C7: explosion lifetime formula -/

/-- C7: an `Explosion` created with size `s` has lifetime
`0.05 + clamp((s - 50)/60, 0, 1) * (maxDuration - 0.05)` seconds, where
`explosionMaxDuration = 0.25` is the largest lifetime the map produces
(`0.3 - 0.1 = explosionMaxDuration - 0.05`); the duration never exceeds that
maximum and is monotonically non-decreasing in `s`. -/
theorem explosion_lifetime_formula :
    (∀ s : ℚ, explosionDuration s
        = 0.05 + clampQ ((s - 50) / 60) 0 1 * (explosionMaxDuration - 0.05))
    ∧ explosionMaxDuration = 0.25
    ∧ (∀ s : ℚ, explosionDuration s ≤ explosionMaxDuration)
    ∧ (∀ s s' : ℚ, s ≤ s' → explosionDuration s ≤ explosionDuration s')
    ∧ (∀ s : ℚ, (Explosion.new s).timer.duration = explosionDuration s) := by
  have hmax : explosionMaxDuration = 0.25 := by
    norm_num [explosionMaxDuration, explosionDuration, clampQ]
  have hformula : ∀ s : ℚ, explosionDuration s
      = 0.05 + clampQ ((s - 50) / 60) 0 1 * (explosionMaxDuration - 0.05) := by
    intro s
    rw [hmax]
    show 0.05 + clampQ ((max s 1 - 50) / 60) 0 1 * (0.3 - 0.1)
      = 0.05 + clampQ ((s - 50) / 60) 0 1 * ((0.25 : ℚ) - 0.05)
    rw [clampQ_max_one]
    norm_num
  refine ⟨hformula, hmax, ?_, ?_, fun _ => rfl⟩
  · intro s
    rw [hformula s, hmax]
    have h1 : clampQ ((s - 50) / 60) 0 1 ≤ 1 := clampQ_le_hi
    have h0 : (0:ℚ) ≤ clampQ ((s - 50) / 60) 0 1 := clampQ_nonneg (by norm_num)
    nlinarith
  · intro s s' h
    rw [hformula s, hformula s', hmax]
    have hdiv : (s - 50) / 60 ≤ (s' - 50) / 60 :=
      (div_le_div_iff_of_pos_right (by norm_num)).mpr (by linarith)
    have hc : clampQ ((s - 50) / 60) 0 1 ≤ clampQ ((s' - 50) / 60) 0 1 :=
      clampQ_mono 0 1 hdiv
    nlinarith

/-- Witness for C7: the duration formula and monotonicity at concrete sizes
`50` and `110`. -/
theorem explosion_lifetime_formula_witness :
    explosionDuration 50 ≤ explosionDuration 110 :=
  explosion_lifetime_formula.2.2.2.1 50 110 (by norm_num)

/-! ### C5: blast size on exploding-timer completion -/

/-- C5 (amended): when a creature's exploding timer finishes under the tick,
the creature is despawned (`none`) and an explosion is requested at its
position with size `70 + 12 * min(appetite, 5)` — a linear map over
appetite `0..STOMACH_CAP` onto the size range `70..130` (`0 ↦ 70`,
`STOMACH_CAP ↦ 130`), monotone in the appetite. -/
theorem explode_blast_size_spec (e : EnemyState) (timer : GameTimer)
    (hungry : Option ℕ) (dt : ℚ) (hfin : (timer.tick dt).finished = true) :
    explodeStep e timer hungry dt
      = (none, some ⟨e.pos, 70 + ((min (hungry.getD 0) 5 : ℕ) : ℚ) * 12⟩)
    ∧ (70 + ((min 0 5 : ℕ) : ℚ) * 12 = 70)
    ∧ (70 + ((min STOMACH_CAP 5 : ℕ) : ℚ) * 12 = 130)
    ∧ (∀ a b : ℕ, a ≤ b →
        70 + ((min a 5 : ℕ) : ℚ) * 12 ≤ 70 + ((min b 5 : ℕ) : ℚ) * 12) := by
  refine ⟨?_, by norm_num, by norm_num [STOMACH_CAP], ?_⟩
  · unfold explodeStep
    rw [if_pos hfin]
    simp [Nat.max_zero]
  · intro a b h
    have hmin : min a 5 ≤ min b 5 := min_le_min h le_rfl
    have hq : ((min a 5 : ℕ) : ℚ) ≤ ((min b 5 : ℕ) : ℚ) := by exact_mod_cast hmin
    nlinarith

/-- Witness for C5: a creature with appetite `3` and a finished timer
requests a blast of size `106` at its position. -/
theorem explode_blast_size_spec_witness :
    explodeStep (EnemyState.spawn Vec2.zero) (GameTimer.fromSeconds 1) (some 3) 1
      = (none, some ⟨Vec2.zero, 70 + ((min ((some 3).getD 0) 5 : ℕ) : ℚ) * 12⟩) :=
  (explode_blast_size_spec (EnemyState.spawn Vec2.zero) (GameTimer.fromSeconds 1)
    (some 3) 1 (by norm_num [GameTimer.fromSeconds, GameTimer.tick, GameTimer.finished])).1

/-- Counterexample to C5 as stated: at the stomach cap the blast size is
`70 + 5 * 12 = 130`, not `110`. -/
theorem explode_blast_size_cap_counterexample :
    (explodeStep (EnemyState.spawn Vec2.zero) (GameTimer.fromSeconds 1)
        (some STOMACH_CAP) 1).2
      = some ⟨Vec2.zero, 130⟩
    ∧ (130 : ℚ) ≠ 110 := by
  norm_num [explodeStep, GameTimer.fromSeconds, GameTimer.tick, GameTimer.finished,
    STOMACH_CAP, SpawnExplosionReq.mk.injEq, EnemyState.spawn, Vec2.zero]

/-! ### C4: entering the exploding state -/

/-- C4 (amended): the start-exploding handler, applied to an enemy that is
not already `Exploding` with a sampled duration from `0.8..=1.4`, halves the
linear velocity and inserts an `Exploding` once-timer of exactly the sampled
duration (within `[0.8, 1.4]`), but removes nothing: the `Hunting` tag, the
appetite counter and the `Eating` tag all remain as they were. -/
theorem start_exploding_handler_spec (e : EnemyState) (sample : ℚ)
    (hnot : e.exploding = none) (hlo : (0.8 : ℚ) ≤ sample) (hhi : sample ≤ (1.4 : ℚ)) :
    (startExplodingHandler e sample).velocity = (0.5 : ℚ) • e.velocity
    ∧ (startExplodingHandler e sample).exploding
        = some (GameTimer.fromSeconds sample)
    ∧ (GameTimer.fromSeconds sample).duration = sample
    ∧ (0.8 : ℚ) ≤ (GameTimer.fromSeconds sample).duration
    ∧ (GameTimer.fromSeconds sample).duration ≤ (1.4 : ℚ)
    ∧ (startExplodingHandler e sample).hunting = e.hunting
    ∧ (startExplodingHandler e sample).hungryCount = e.hungryCount
    ∧ (startExplodingHandler e sample).eating = e.eating :=
  ⟨rfl, rfl, rfl, hlo, hhi, rfl, rfl, rfl⟩

/-- Witness for C4: the handler at a fresh enemy with sampled duration `1`. -/
theorem start_exploding_handler_spec_witness :
    (startExplodingHandler (EnemyState.spawn Vec2.zero) 1).exploding
      = some (GameTimer.fromSeconds 1) :=
  (start_exploding_handler_spec (EnemyState.spawn Vec2.zero) 1 rfl (by norm_num)
    (by norm_num)).2.1

/-- Counterexample to C4 as stated: a `Hunting` enemy with appetite `4` that
is not yet exploding keeps both its `Hunting` tag and its appetite counter
after the start-exploding handler runs (the handler only inserts
`Exploding`; it removes no component). -/
theorem start_exploding_keeps_tags_counterexample :
    ({ EnemyState.spawn Vec2.zero with hunting := true, hungryCount := 4 }
        : EnemyState).exploding = none
    ∧ (0.8 : ℚ) ≤ 1 ∧ (1 : ℚ) ≤ 1.4
    ∧ (startExplodingHandler
        { EnemyState.spawn Vec2.zero with hunting := true, hungryCount := 4 }
        1).hunting = true
    ∧ (startExplodingHandler
        { EnemyState.spawn Vec2.zero with hunting := true, hungryCount := 4 }
        1).hungryCount = 4 := by
  refine ⟨rfl, by norm_num, by norm_num, rfl, rfl⟩

/-! ### C3: appetite monotonicity and the hunting transition -/

/-- Operations affecting one creature's behavioural state over time: an eat
collision event, the eat-cooldown tick, and a start-exploding event with its
sampled timer duration. -/
inductive EnemyOp
  | eat (f : FoodState) (dist : ℚ)
  | cooldownTick (dt : ℚ)
  | startExploding (sample : ℚ)
deriving DecidableEq, Repr

/-- One step of the creature state machine. -/
def enemyStep (e : EnemyState) : EnemyOp → EnemyState
  | .eat f dist => (eatEvent e f dist).1
  | .cooldownTick dt => tickEatCooldown e dt
  | .startExploding sample => startExplodingHandler e sample

/-- Run a creature over a list of operations. -/
def runEnemy (e : EnemyState) : List EnemyOp → EnemyState
  | [] => e
  | op :: rest => runEnemy (enemyStep e op) rest

theorem enemyStep_hungryCount_le (e : EnemyState) (op : EnemyOp) :
    e.hungryCount ≤ (enemyStep e op).hungryCount := by
  cases op with
  | eat f dist =>
    show e.hungryCount ≤ (eatEvent e f dist).1.hungryCount
    unfold eatEvent
    split
    · exact le_rfl
    · split
      · exact le_rfl
      · dsimp only
        split
        · exact Nat.le_succ _
        · exact Nat.le_succ _
  | cooldownTick dt => exact le_rfl
  | startExploding sample => exact le_rfl

theorem enemyStep_hunting_mono (e : EnemyState) (op : EnemyOp)
    (h : e.hunting = true) : (enemyStep e op).hunting = true := by
  cases op with
  | eat f dist =>
    show (eatEvent e f dist).1.hunting = true
    unfold eatEvent
    split
    · exact h
    · split
      · exact h
      · dsimp only
        split
        · rfl
        · exact h
  | cooldownTick dt => exact h
  | startExploding sample => exact h

theorem enemyStep_cap_hunting (e : EnemyState) (op : EnemyOp)
    (h : STOMACH_CAP ≤ e.hungryCount → e.hunting = true) :
    STOMACH_CAP ≤ (enemyStep e op).hungryCount → (enemyStep e op).hunting = true := by
  cases op with
  | eat f dist =>
    show STOMACH_CAP ≤ (eatEvent e f dist).1.hungryCount →
      (eatEvent e f dist).1.hunting = true
    unfold eatEvent
    split
    · exact h
    · split
      · exact h
      · dsimp only
        split
        · intro _
          rfl
        · intro hcap
          exact absurd hcap (by assumption)
  | cooldownTick dt => exact h
  | startExploding sample => exact h

/-- C3 (amended): along any sequence of eat events, cooldown ticks and
start-exploding events, the creature's appetite counter is monotonically
non-decreasing and the `Hunting` tag, once present, persists; reaching
`STOMACH_CAP` always leaves the creature `Hunting`.  However, since the
`eat` system's query does not exclude `Hunting` creatures and the `Hungry`
component is never removed, eat events continue to increment the counter
after the transition (the counter is only clamped when the blast size is
computed). -/
theorem appetite_monotone_hunting_persistent :
    (∀ (e : EnemyState) (ops : List EnemyOp),
      e.hungryCount ≤ (runEnemy e ops).hungryCount)
    ∧ (∀ (e : EnemyState) (ops : List EnemyOp),
      e.hunting = true → (runEnemy e ops).hunting = true)
    ∧ (∀ (e : EnemyState) (ops : List EnemyOp),
      (STOMACH_CAP ≤ e.hungryCount → e.hunting = true) →
      STOMACH_CAP ≤ (runEnemy e ops).hungryCount →
        (runEnemy e ops).hunting = true) := by
  refine ⟨?_, ?_, ?_⟩
  · intro e ops
    induction ops generalizing e with
    | nil => exact le_rfl
    | cons op rest ih =>
      exact le_trans (enemyStep_hungryCount_le e op) (ih (enemyStep e op))
  · intro e ops
    induction ops generalizing e with
    | nil => exact fun h => h
    | cons op rest ih =>
      intro h
      exact ih (enemyStep e op) (enemyStep_hunting_mono e op h)
  · intro e ops
    induction ops generalizing e with
    | nil => exact fun h => h
    | cons op rest ih =>
      intro h
      exact ih (enemyStep e op) (enemyStep_cap_hunting e op h)

/-- Creature that already transitioned to `Hunting` with a full stomach and
an elapsed eat-cooldown, at the origin. -/
def huntingFullEnemy : EnemyState :=
  { EnemyState.spawn Vec2.zero with
    hungryCount := 5
    hunting := true
    eatCooldown := ⟨1/10, 1/10⟩ }

/-- Witness for C3's amended theorem: the `Hunting` tag persists through a
further concrete eat event. -/
theorem appetite_monotone_hunting_persistent_witness :
    (runEnemy huntingFullEnemy [EnemyOp.eat ⟨1, ⟨10, 0⟩⟩ 10]).hunting = true :=
  appetite_monotone_hunting_persistent.2.1 huntingFullEnemy
    [EnemyOp.eat ⟨1, ⟨10, 0⟩⟩ 10] rfl

/-- Counterexample to C3 as stated: a creature that has already transitioned
to `Hunting` with appetite at `STOMACH_CAP` and an elapsed eat-cooldown
collides with food holding one unit at distance `10` (position `(10, 0)`,
a true Euclidean distance) — the eat event increments the appetite counter
to `6`, past the cap. -/
theorem appetite_increment_after_hunting_counterexample :
    huntingFullEnemy.hunting = true
    ∧ IsDist (⟨10, 0⟩ : Vec2) Vec2.zero 10
    ∧ (eatEvent huntingFullEnemy ⟨1, ⟨10, 0⟩⟩ 10).1.hungryCount = 6 := by
  refine ⟨rfl, ?_, ?_⟩
  · constructor
    · norm_num
    · norm_num [Vec2.normSq, Vec2.sub_def, Vec2.zero]
  · norm_num [eatEvent, huntingFullEnemy, EnemyState.spawn, GameTimer.finished,
      STOMACH_CAP]

/-! ### C1: explosion falloff -/

/-- C1 (amended): for a live explosion of radius `r > 0` and a target at true
planar distance `d` from the center, the impulse added by the force system
has squared magnitude `(EXPLOSION_FORCE * (1 - d/r))²` whenever `0 < d ≤ r`;
it is exactly the zero vector at `d = r` and for `d > r`; the scalar
strength is non-increasing in `d` and equals `EXPLOSION_FORCE` at `d = 0`,
but at `d = 0` the outward direction `normalize_or_zero(target - center)` is
the zero vector, so the added impulse is the zero vector there rather than
one of magnitude `EXPLOSION_FORCE`. -/
theorem explosion_falloff_spec (c t : Vec2) (d r : ℚ) (hr : 0 < r)
    (hd : IsDist c t d) :
    (d ≤ r → d ≠ 0 →
      (explosionImpulseDelta c t d r).normSq
        = (EXPLOSION_FORCE * (1 - d / r)) * (EXPLOSION_FORCE * (1 - d / r)))
    ∧ (d = 0 → explosionImpulseDelta c t d r = Vec2.zero)
    ∧ (r < d → explosionImpulseDelta c t d r = Vec2.zero)
    ∧ (d = r → explosionImpulseDelta c t d r = Vec2.zero)
    ∧ (∀ d' : ℚ, d ≤ d' → explosionStrength r d' ≤ explosionStrength r d)
    ∧ explosionStrength r 0 = EXPLOSION_FORCE := by
  obtain ⟨hd0, hdsq⟩ := hd
  have hstrength : ∀ x : ℚ, 0 ≤ x → x ≤ r →
      explosionStrength r x = EXPLOSION_FORCE * (1 - x / r) := by
    intro x hx0 hxr
    unfold explosionStrength
    rw [clampQ_of_mem (div_nonneg hx0 hr.le) ((div_le_one hr).mpr hxr)]
  refine ⟨?_, ?_, ?_, ?_, ?_, ?_⟩
  · intro hle hne
    unfold explosionImpulseDelta normalizeOrZeroWith
    rw [if_pos hle, if_neg hne, hstrength d hd0 hle]
    rw [Vec2.normSq_smul, Vec2.normSq_smul, ← hdsq]
    field_simp
  · intro h0
    unfold explosionImpulseDelta normalizeOrZeroWith
    rw [if_pos (h0 ▸ hr.le), if_pos h0, Vec2.smul_zero_vec]
  · intro hgt
    unfold explosionImpulseDelta
    rw [if_neg (not_le.mpr hgt)]
  · intro heq
    subst heq
    unfold explosionImpulseDelta
    rw [if_pos le_rfl, hstrength d hd0 le_rfl]
    rw [div_self hr.ne.symm]
    norm_num
    rw [Vec2.smul_def]
    norm_num [Vec2.zero]
  · intro d' hdd
    unfold explosionStrength
    have hc : clampQ (d / r) 0 1 ≤ clampQ (d' / r) 0 1 :=
      clampQ_mono 0 1 ((div_le_div_iff_of_pos_right hr).mpr hdd)
    have hF : (0:ℚ) ≤ EXPLOSION_FORCE := by norm_num [EXPLOSION_FORCE]
    nlinarith
  · unfold explosionStrength
    rw [zero_div, clampQ_of_mem le_rfl (by norm_num)]
    norm_num

/-- Witness for C1's amended theorem: a target at distance `30` on the axis
of an explosion of radius `60` receives an impulse of squared magnitude
`(12000 * (1 - 1/2))² = 6000²`. -/
theorem explosion_falloff_spec_witness :
    (explosionImpulseDelta Vec2.zero ⟨30, 0⟩ 30 60).normSq
      = (EXPLOSION_FORCE * (1 - 30 / 60)) * (EXPLOSION_FORCE * (1 - 30 / 60)) :=
  (explosion_falloff_spec Vec2.zero ⟨30, 0⟩ 30 60 (by norm_num)
      ⟨by norm_num, by norm_num [Vec2.normSq, Vec2.sub_def, Vec2.zero]⟩).1
    (by norm_num) (by norm_num)

/-- Counterexample to C1 as stated: a target exactly at the explosion center
(`d = 0 ≤ r = 70`) receives the zero impulse — squared magnitude `0`, not
`EXPLOSION_FORCE²` — because `normalize_or_zero` of the zero offset is the
zero vector. -/
theorem explosion_center_zero_impulse_counterexample :
    IsDist Vec2.zero Vec2.zero 0
    ∧ (0 : ℚ) ≤ 70
    ∧ explosionImpulseDelta Vec2.zero Vec2.zero 0 70 = Vec2.zero
    ∧ (explosionImpulseDelta Vec2.zero Vec2.zero 0 70).normSq
        ≠ EXPLOSION_FORCE * EXPLOSION_FORCE := by
  refine ⟨⟨le_rfl, by norm_num [Vec2.normSq, Vec2.sub_def, Vec2.zero]⟩,
    by norm_num, ?_, ?_⟩
  · norm_num [explosionImpulseDelta, normalizeOrZeroWith, Vec2.smul_zero_vec]
  · norm_num [explosionImpulseDelta, normalizeOrZeroWith, Vec2.smul_def,
      Vec2.normSq, Vec2.zero, EXPLOSION_FORCE]

/-! ### C6: which target kinds the force resolver reaches -/

/-- C6 (amended): the explosion force resolver applies its falloff impulse
uniformly to every non-`Explosion` entity that has an impulse sink
(`ExternalImpulse`); the enemy and player bundles carry one and match the
resolver's query, but the food and spawner bundles are spawned without an
`ExternalImpulse`, do not match the query, and are left completely
untouched by the resolver. -/
theorem explosion_force_query_spec :
    matchesExplosionAffectedQuery enemyBundle = true
    ∧ matchesExplosionAffectedQuery playerBundle = true
    ∧ matchesExplosionAffectedQuery foodBundle = false
    ∧ matchesExplosionAffectedQuery spawnerBundle = false
    ∧ matchesExplosionAffectedQuery explosionBundle = false
    ∧ (∀ (p : Vec2) (r : ℚ) (e : PhysEntity) (d : ℚ),
        matchesExplosionAffectedQuery e.bundle = false →
        explosionForceOnEntity p r e d = e)
    ∧ (∀ (p : Vec2) (r : ℚ) (e : PhysEntity) (d : ℚ),
        matchesExplosionAffectedQuery e.bundle = true →
        (explosionForceOnEntity p r e d).impulse
          = e.impulse + explosionImpulseDelta p e.pos d r) := by
  refine ⟨by decide, by decide, by decide, by decide, by decide, ?_, ?_⟩
  · intro p r e d h
    unfold explosionForceOnEntity
    rw [h]
    rfl
  · intro p r e d h
    unfold explosionForceOnEntity
    rw [h]
    rfl

/-- Witness for C6's amended theorem: a concrete spawner entity at distance
`35` from an explosion of radius `70` is untouched by the resolver. -/
theorem explosion_force_query_spec_witness :
    explosionForceOnEntity Vec2.zero 70 ⟨spawnerBundle, ⟨35, 0⟩, Vec2.zero⟩ 35
      = ⟨spawnerBundle, ⟨35, 0⟩, Vec2.zero⟩ :=
  explosion_force_query_spec.2.2.2.2.2.1 Vec2.zero 70
    ⟨spawnerBundle, ⟨35, 0⟩, Vec2.zero⟩ 35 (by decide)

/-- Counterexample to C6 as stated: a food entity at true distance `35`
inside an explosion of radius `70` — the falloff strength there is positive,
yet the food's accumulated impulse stays zero, because the food bundle has
no `ExternalImpulse` component and so is absent from the resolver's query. -/
theorem food_receives_no_impulse_counterexample :
    IsDist Vec2.zero (⟨35, 0⟩ : Vec2) 35
    ∧ (35 : ℚ) ≤ 70
    ∧ 0 < explosionStrength 70 35
    ∧ (explosionForceOnEntity Vec2.zero 70 ⟨foodBundle, ⟨35, 0⟩, Vec2.zero⟩ 35).impulse
        = Vec2.zero
    ∧ foodBundle.contains ComponentKind.externalImpulse = false
    ∧ spawnerBundle.contains ComponentKind.externalImpulse = false := by
  refine ⟨⟨by norm_num, by norm_num [Vec2.normSq, Vec2.sub_def, Vec2.zero]⟩,
    by norm_num, ?_, ?_, by decide, by decide⟩
  · norm_num [explosionStrength, clampQ, EXPLOSION_FORCE]
  · have h : matchesExplosionAffectedQuery foodBundle = false := by decide
    unfold explosionForceOnEntity
    rw [h]
    simp

/-! ### C9: despawn pass with the early return -/

/-- Evaluation of `despawn_explosion` at the failing input for C9: two live
explosions, the first (in iteration order) unfinished with `1` second
duration, the second already finished.  The system ticks the first, sees it
unfinished, and `return`s — so the second explosion, despite its finished
lifetime timer, survives the despawn pass (and is not even ticked by it). -/
theorem despawn_explosion_early_return_bug :
    despawnExplosionPass (1/100) [⟨⟨0, 1⟩, 50⟩, ⟨⟨1/20, 1/20⟩, 50⟩]
      = [⟨⟨1/100, 1⟩, 50⟩, ⟨⟨1/20, 1/20⟩, 50⟩]
    ∧ (Explosion.timer ⟨⟨1/20, 1/20⟩, 50⟩).finished = true := by
  norm_num [despawnExplosionPass, GameTimer.tick, GameTimer.finished]

/-! ### C10: double ticking of the explosion lifetime timer -/

/-- C10 (amended): in a frame where the despawn pass reaches an explosion —
in particular for a sole live explosion — its lifetime timer is advanced
twice, once by the sprite-animation system and once by the despawn system,
each by the full frame delta; the explosion is despawned on the frame where
the doubly-ticked elapsed time reaches the duration, and after `n` such
frames the sole explosion's elapsed time is `2 n · dt` — so it finishes
after approximately half of its configured duration of real time.  (An
explosion preceded in the despawn pass's iteration order by an unfinished
one is only advanced once that frame, by the animation system: see the
counterexample.) -/
theorem explosion_frame_single_spec (e : Explosion) (dt : ℚ) (hdt : 0 ≤ dt) :
    (e.timer.elapsed + 2 * dt < e.timer.duration →
      explosionFrame dt [e]
        = [{ e with timer := ⟨e.timer.elapsed + 2 * dt, e.timer.duration⟩ }])
    ∧ (e.timer.duration ≤ e.timer.elapsed + 2 * dt →
      explosionFrame dt [e] = []) := by
  constructor
  · intro halive
    have h1 : e.timer.elapsed + dt ≤ e.timer.duration := by linarith
    have h2 : e.timer.elapsed + dt + dt ≤ e.timer.duration := by linarith
    unfold explosionFrame explosionAnimationPass despawnExplosionPass
    simp only [List.map_cons, List.map_nil, GameTimer.tick, min_eq_left h1,
      min_eq_left h2]
    rw [if_neg ?_]
    · have : e.timer.elapsed + dt + dt = e.timer.elapsed + 2 * dt := by ring
      simp [GameTimer.finished, this]
    · simp only [GameTimer.finished, decide_eq_true_eq]
      intro hcon
      linarith
  · intro hdone
    unfold explosionFrame explosionAnimationPass despawnExplosionPass
    simp only [List.map_cons, List.map_nil, GameTimer.tick]
    rw [if_pos ?_]
    · rfl
    · simp only [GameTimer.finished, decide_eq_true_eq]
      rcases le_total (e.timer.elapsed + dt) e.timer.duration with h | h
      · rw [min_eq_left h]
        exact le_min (by linarith) le_rfl
      · rw [min_eq_right h]
        exact le_min (by linarith) le_rfl

/-- Witness for C10's amended theorem: a sole explosion with a `1` second
lifetime is advanced by `2 × 0.1` seconds in one frame of delta `0.1`. -/
theorem explosion_frame_single_spec_witness :
    explosionFrame (1/10) [⟨⟨0, 1⟩, 50⟩]
      = [{ (⟨⟨0, 1⟩, 50⟩ : Explosion) with
            timer := ⟨(Explosion.timer ⟨⟨0, 1⟩, 50⟩).elapsed + 2 * (1/10),
              (Explosion.timer ⟨⟨0, 1⟩, 50⟩).duration⟩ }] :=
  (explosion_frame_single_spec ⟨⟨0, 1⟩, 50⟩ (1/10) (by norm_num)).1
    (by norm_num)

/-- Counterexample to C10 as stated: with two live explosions, both of
duration `1` and elapsed `0`, a frame of delta `0.1` advances the first
explosion's timer by `0.2` but the second's only by `0.1` — the despawn
system's early `return` at the first unfinished explosion means later
explosions are ticked once per frame, not twice. -/
theorem explosion_second_ticked_once_counterexample :
    explosionFrame (1/10) [⟨⟨0, 1⟩, 50⟩, ⟨⟨0, 1⟩, 50⟩]
      = [⟨⟨2/10, 1⟩, 50⟩, ⟨⟨1/10, 1⟩, 50⟩]
    ∧ (1/10 : ℚ) ≠ 2/10 := by
  norm_num [explosionFrame, explosionAnimationPass, despawnExplosionPass,
    GameTimer.tick, GameTimer.finished]

/-! ### C2: the per-punch hit set deduplicates knockback -/

/-- Hit budget remaining for a target under a given hit set: `1` while the
target is absent, `0` once it is present. -/
def hitPotential (s : List ℕ) (target : ℕ) : ℕ :=
  if s.contains target then 0 else 1

theorem hitPotential_le_one (s : List ℕ) (target : ℕ) :
    hitPotential s target ≤ 1 := by
  unfold hitPotential
  split <;> norm_num

theorem hitPotential_cons_le (s : List ℕ) (t u : ℕ) :
    hitPotential (t :: s) u ≤ hitPotential s u := by
  unfold hitPotential
  rw [List.contains_cons]
  rcases hb : s.contains u with _ | _ <;> rcases he : (u == t) with _ | _ <;> simp

theorem hitPotential_cons_self (s : List ℕ) (t : ℕ) :
    hitPotential (t :: s) t = 0 := by
  unfold hitPotential
  rw [List.contains_cons]
  simp

theorem hitPotential_cons_ne (s : List ℕ) (t u : ℕ) (h : t ≠ u) :
    hitPotential (t :: s) u = hitPotential s u := by
  unfold hitPotential
  rw [List.contains_cons, beq_eq_false_iff_ne.mpr (Ne.symm h)]
  simp

theorem insertHit_contains (s : List ℕ) (t : ℕ) (hc : s.contains t = true) :
    insertHit s t = (false, s) := by
  unfold insertHit
  rw [if_pos hc]

theorem insertHit_not_contains (s : List ℕ) (t : ℕ) (hc : s.contains t = false) :
    insertHit s t = (true, t :: s) := by
  unfold insertHit
  rw [hc, if_neg Bool.false_ne_true]

theorem tryPunch_counts (acc : List ℕ × PunchOut) (t : ℕ × Bool) (target : ℕ) :
    countHits (tryPunch acc t).2 target + hitPotential (tryPunch acc t).1 target
      ≤ countHits acc.2 target + hitPotential acc.1 target := by
  unfold tryPunch
  by_cases hc : acc.1.contains t.1 = true
  · rw [insertHit_contains acc.1 t.1 hc]
    exact le_rfl
  · have hc' : acc.1.contains t.1 = false := by
      rcases h : acc.1.contains t.1 with _ | _
      · rfl
      · exact absurd h hc
    rw [insertHit_not_contains acc.1 t.1 hc']
    dsimp only
    rw [Bool.true_and]
    by_cases hb : t.2 = true
    · rw [if_pos hb]
      by_cases heq : t.1 = target
      · subst heq
        have h1 : hitPotential acc.1 t.1 = 1 := by
          unfold hitPotential
          rw [hc', if_neg Bool.false_ne_true]
        rw [h1, hitPotential_cons_self]
        unfold countHits
        rw [List.countP_append]
        simp [List.countP_cons]
      · rw [hitPotential_cons_ne _ _ _ heq]
        unfold countHits
        rw [List.countP_append]
        simp [List.countP_cons, heq]
    · have hb' : t.2 = false := by
        rcases h : t.2 with _ | _
        · rfl
        · exact absurd h hb
      rw [hb', if_neg (by simp)]
      exact Nat.add_le_add_left (hitPotential_cons_le acc.1 t.1 target) _

theorem tryPunch_fold_counts (targets : List (ℕ × Bool)) (acc : List ℕ × PunchOut)
    (target : ℕ) :
    countHits (targets.foldl tryPunch acc).2 target
      + hitPotential (targets.foldl tryPunch acc).1 target
      ≤ countHits acc.2 target + hitPotential acc.1 target := by
  induction targets generalizing acc with
  | nil => exact le_rfl
  | cons hd rest ih =>
    exact le_trans (ih (tryPunch acc hd)) (tryPunch_counts acc hd target)

theorem punchHitEvent_counts (s : PunchState) (t target : ℕ)
    (isEnemy isFood hasImpulse : Bool) :
    countHits (punchHitEvent s t isEnemy isFood hasImpulse).2 target
      + hitPotential (punchHitEvent s t isEnemy isFood hasImpulse).1.hitEntities target
      ≤ hitPotential s.hitEntities target := by
  unfold punchHitEvent
  by_cases hp : (!s.isPunching) = true
  · rw [if_pos hp]
    simp [countHits]
  · rw [if_neg hp]
    by_cases hret : (1/2 : ℚ) ≤ punchProgress s
    · rw [if_pos hret]
      simp [countHits]
    · rw [if_neg hret]
      by_cases hc : s.hitEntities.contains t = true
      · rw [insertHit_contains s.hitEntities t hc]
        simp [countHits]
      · have hc' : s.hitEntities.contains t = false := by
          rcases h : s.hitEntities.contains t with _ | _
          · rfl
          · exact absurd h hc
        rw [insertHit_not_contains s.hitEntities t hc']
        dsimp only
        simp only [Bool.not_true, Bool.false_eq_true, if_false]
        by_cases hv : (!(isEnemy || isFood)) = true
        · rw [if_pos hv]
          simpa [countHits] using hitPotential_cons_le s.hitEntities t target
        · rw [if_neg hv]
          by_cases hi : hasImpulse = true
          · rw [if_pos hi]
            by_cases heq : t = target
            · subst heq
              have h1 : hitPotential s.hitEntities t = 1 := by
                unfold hitPotential
                rw [hc', if_neg Bool.false_ne_true]
              rw [h1, hitPotential_cons_self]
              simp [countHits]
            · rw [hitPotential_cons_ne _ _ _ heq]
              simp [countHits, heq]
          · rw [if_neg hi]
            simpa [countHits] using hitPotential_cons_le s.hitEntities t target

theorem manualPunchPass_counts (s : PunchState) (targets : List (ℕ × Bool))
    (target : ℕ) :
    countHits (manualPunchPass s targets).2 target
      + hitPotential (manualPunchPass s targets).1.hitEntities target
      ≤ hitPotential s.hitEntities target := by
  unfold manualPunchPass
  by_cases hp : (!s.isPunching) = true
  · rw [if_pos hp]
    simp [countHits]
  · rw [if_neg hp]
    by_cases hret : (1/2 : ℚ) ≤ punchProgress s
    · rw [if_pos hret]
      simp [countHits]
    · rw [if_neg hret]
      rcases hfold : targets.foldl tryPunch (s.hitEntities, []) with ⟨hits, out⟩
      have h := tryPunch_fold_counts targets (s.hitEntities, []) target
      rw [hfold] at h
      simpa [countHits] using h

theorem moveCursorTick_hitEntities (s : PunchState) (dt : ℚ) :
    (moveCursorTick s dt).hitEntities = s.hitEntities := by
  unfold moveCursorTick
  split
  · dsimp only
    split <;> rfl
  · rfl

theorem punchStep_counts (s : PunchState) (op : PunchOp) (target : ℕ)
    (hop : op.isStart = false) :
    countHits (punchStep s op).2 target
      + hitPotential (punchStep s op).1.hitEntities target
      ≤ hitPotential s.hitEntities target := by
  cases op with
  | startPunch => exact absurd hop (by simp [PunchOp.isStart])
  | moveTick dt =>
    show countHits ([] : PunchOut) target
        + hitPotential (moveCursorTick s dt).hitEntities target
      ≤ hitPotential s.hitEntities target
    rw [moveCursorTick_hitEntities]
    simp [countHits]
  | collisionHit t isEnemy isFood hasImpulse =>
    exact punchHitEvent_counts s t target isEnemy isFood hasImpulse
  | proximityPass targets =>
    exact manualPunchPass_counts s targets target

theorem runPunch_counts (s : PunchState) (ops : List PunchOp) (target : ℕ)
    (h : ∀ op ∈ ops, op.isStart = false) :
    countHits (runPunch s ops).2 target
      + hitPotential (runPunch s ops).1.hitEntities target
      ≤ hitPotential s.hitEntities target := by
  induction ops generalizing s with
  | nil => simp [runPunch, countHits]
  | cons op rest ih =>
    have hop : op.isStart = false := h op (List.mem_cons_self op rest)
    have hrest : ∀ o ∈ rest, o.isStart = false :=
      fun o ho => h o (List.mem_cons_of_mem op ho)
    show countHits ((punchStep s op).2 ++ (runPunch (punchStep s op).1 rest).2) target
        + hitPotential (runPunch (punchStep s op).1 rest).1.hitEntities target
      ≤ hitPotential s.hitEntities target
    unfold countHits
    rw [List.countP_append]
    have h1 := ih (punchStep s op).1 hrest
    have h2 := punchStep_counts s op target hop
    unfold countHits at h1 h2
    omega

/-- C2: over one punch activation — a `startPunch` edge followed by any
sequence of timer ticks, glove collision events and proximity fallback
passes without a further activation — a given target entity receives at most
one knockback impulse, the collision path and the double-force proximity
path together being gated by the shared per-punch hit set; moreover in the
retraction half (`elapsed/duration ≥ 0.5`) neither hit path emits a
knockback or grows the hit set. -/
theorem punch_target_hit_at_most_once :
    (∀ (s : PunchState) (rest : List PunchOp) (target : ℕ),
      (∀ op ∈ rest, op.isStart = false) →
      countHits (runPunch s (PunchOp.startPunch :: rest)).2 target ≤ 1)
    ∧ (∀ (s : PunchState) (op : PunchOp), op.isStart = false →
      (1/2 : ℚ) ≤ punchProgress s →
      (punchStep s op).2 = [] ∧ (punchStep s op).1.hitEntities = s.hitEntities) := by
  constructor
  · intro s rest target hrest
    show countHits (([] : PunchOut) ++ (runPunch (punchInputStep s) rest).2) target ≤ 1
    rw [List.nil_append]
    have h1 := runPunch_counts (punchInputStep s) rest target hrest
    have h2 := hitPotential_le_one (punchInputStep s).hitEntities target
    have h3 := hitPotential_le_one (runPunch (punchInputStep s) rest).1.hitEntities target
    omega
  · intro s op hop hret
    cases op with
    | startPunch => exact absurd hop (by simp [PunchOp.isStart])
    | moveTick dt =>
      exact ⟨rfl, moveCursorTick_hitEntities s dt⟩
    | collisionHit t isEnemy isFood hasImpulse =>
      show (punchHitEvent s t isEnemy isFood hasImpulse).2 = []
        ∧ (punchHitEvent s t isEnemy isFood hasImpulse).1.hitEntities = s.hitEntities
      unfold punchHitEvent
      by_cases hp : (!s.isPunching) = true
      · rw [if_pos hp]
        exact ⟨rfl, rfl⟩
      · rw [if_neg hp, if_pos hret]
        exact ⟨rfl, rfl⟩
    | proximityPass targets =>
      show (manualPunchPass s targets).2 = []
        ∧ (manualPunchPass s targets).1.hitEntities = s.hitEntities
      unfold manualPunchPass
      by_cases hp : (!s.isPunching) = true
      · rw [if_pos hp]
        exact ⟨rfl, rfl⟩
      · rw [if_neg hp, if_pos hret]
        exact ⟨rfl, rfl⟩

/-- Witness for C2: a punch activation in which target `7` is reported both
by a collision event and by the proximity fallback still knocks it back at
most once. -/
theorem punch_target_hit_at_most_once_witness :
    countHits (runPunch PunchState.default
        (PunchOp.startPunch :: [PunchOp.collisionHit 7 true false true,
          PunchOp.proximityPass [(7, true)]])).2 7 ≤ 1 :=
  punch_target_hit_at_most_once.1 PunchState.default
    [PunchOp.collisionHit 7 true false true, PunchOp.proximityPass [(7, true)]] 7
    (by decide)

/-! ### C8: spawner health invariants -/

theorem damageFromExplosion_health_le (s : SpawnerState) (dist radius : ℚ) :
    (damageFromExplosion s dist radius).health ≤ s.health := by
  unfold damageFromExplosion
  split
  · split
    · exact Nat.sub_le _ _
    · exact le_rfl
  · exact le_rfl

theorem damageFromExplosion_disabled_mono (s : SpawnerState) (dist radius : ℚ)
    (h : s.disabled = true) : (damageFromExplosion s dist radius).disabled = true := by
  unfold damageFromExplosion
  split
  · split
    · dsimp only
      split
      · rfl
      · exact h
    · exact h
  · exact h

theorem damageFromExplosion_zero_disabled (s : SpawnerState) (dist radius : ℚ)
    (h : s.health = 0 → s.disabled = true) :
    (damageFromExplosion s dist radius).health = 0 →
      (damageFromExplosion s dist radius).disabled = true := by
  unfold damageFromExplosion
  split
  · split
    · dsimp only
      intro h0
      rw [if_pos h0]
    · exact h
  · exact h

theorem damageFold_props (l : List (ℚ × ℚ)) (s : SpawnerState) :
    (l.foldl (fun acc p => damageFromExplosion acc p.1 p.2) s).health ≤ s.health
    ∧ (s.disabled = true →
        (l.foldl (fun acc p => damageFromExplosion acc p.1 p.2) s).disabled = true)
    ∧ ((s.health = 0 → s.disabled = true) →
        (l.foldl (fun acc p => damageFromExplosion acc p.1 p.2) s).health = 0 →
        (l.foldl (fun acc p => damageFromExplosion acc p.1 p.2) s).disabled = true) := by
  induction l generalizing s with
  | nil => exact ⟨le_rfl, fun h => h, fun h => h⟩
  | cons hd rest ih =>
    obtain ⟨ih1, ih2, ih3⟩ := ih (damageFromExplosion s hd.1 hd.2)
    refine ⟨le_trans ih1 (damageFromExplosion_health_le s hd.1 hd.2), ?_, ?_⟩
    · intro h
      exact ih2 (damageFromExplosion_disabled_mono s hd.1 hd.2 h)
    · intro h
      exact ih3 (damageFromExplosion_zero_disabled s hd.1 hd.2 h)

theorem spawnerStep_props (s : SpawnerState) (op : SpawnerOp) :
    (spawnerStep s op).1.health ≤ s.health
    ∧ (s.disabled = true → (spawnerStep s op).1.disabled = true)
    ∧ ((s.health = 0 → s.disabled = true) →
        (spawnerStep s op).1.health = 0 → (spawnerStep s op).1.disabled = true)
    ∧ (s.disabled = true → (spawnerStep s op).2 = none) := by
  cases op with
  | damage dt explosions =>
    have h := damageFold_props explosions { s with cooldown := s.cooldown.tick dt }
    exact ⟨h.1, fun hd => h.2.1 hd, fun hin => h.2.2 hin, fun _ => rfl⟩
  | production fired =>
    refine ⟨le_rfl, fun h => h, fun h => h, ?_⟩
    intro hd
    show spawnEnemyStep s fired = none
    unfold spawnEnemyStep
    rw [hd]
    simp
  | tickCooldown dt => exact ⟨le_rfl, fun h => h, fun h => h, fun _ => rfl⟩

theorem runSpawner_props (s : SpawnerState) (ops : List SpawnerOp) :
    (runSpawner s ops).1.health ≤ s.health
    ∧ (s.disabled = true → (runSpawner s ops).1.disabled = true)
    ∧ ((s.health = 0 → s.disabled = true) →
        (runSpawner s ops).1.health = 0 → (runSpawner s ops).1.disabled = true)
    ∧ (s.disabled = true → (runSpawner s ops).2 = []) := by
  induction ops generalizing s with
  | nil => exact ⟨le_rfl, fun h => h, fun h => h, fun _ => rfl⟩
  | cons op rest ih =>
    obtain ⟨ih1, ih2, ih3, ih4⟩ := ih (spawnerStep s op).1
    obtain ⟨st1, st2, st3, st4⟩ := spawnerStep_props s op
    refine ⟨le_trans ih1 st1, fun h => ih2 (st2 h), fun h => ih3 (st3 h), ?_⟩
    intro hd
    show (spawnerStep s op).2.toList ++ (runSpawner (spawnerStep s op).1 rest).2 = []
    rw [st4 hd, ih4 (st2 hd)]
    rfl

/-- C8: along any run of damage ticks, production-timer ticks and cooldown
ticks, a spawner's health is monotonically non-increasing and stays at most
`MAX_SPAWNER_HEALTH = 8` (it is a natural number, hence also at least `0`);
the disabled flag is terminal; a spawner whose health has reached `0` is
disabled and from then on its production-timer firings emit no enemy-spawn
request; a freshly spawned spawner starts at full health and enabled. -/
theorem spawner_health_invariants :
    (∀ (s : SpawnerState) (ops : List SpawnerOp),
      (runSpawner s ops).1.health ≤ s.health)
    ∧ (∀ (s : SpawnerState) (ops : List SpawnerOp),
      s.health ≤ MAX_SPAWNER_HEALTH →
      (runSpawner s ops).1.health ≤ MAX_SPAWNER_HEALTH)
    ∧ (∀ (s : SpawnerState) (ops : List SpawnerOp), s.disabled = true →
      (runSpawner s ops).1.disabled = true)
    ∧ (∀ (s : SpawnerState) (ops : List SpawnerOp),
      (s.health = 0 → s.disabled = true) →
      (runSpawner s ops).1.health = 0 → (runSpawner s ops).1.disabled = true)
    ∧ (∀ (s : SpawnerState) (ops : List SpawnerOp), s.disabled = true →
      (runSpawner s ops).2 = [])
    ∧ (∀ (s : SpawnerState) (fired : Bool), s.disabled = true →
      spawnEnemyStep s fired = none)
    ∧ (∀ pos : Vec2, (SpawnerState.spawn pos).health = MAX_SPAWNER_HEALTH
        ∧ (SpawnerState.spawn pos).disabled = false) := by
  refine ⟨fun s ops => (runSpawner_props s ops).1,
    fun s ops h => le_trans (runSpawner_props s ops).1 h,
    fun s ops h => (runSpawner_props s ops).2.1 h,
    fun s ops h => (runSpawner_props s ops).2.2.1 h,
    fun s ops h => (runSpawner_props s ops).2.2.2 h,
    ?_, fun pos => ⟨rfl, rfl⟩⟩
  intro s fired hd
  unfold spawnEnemyStep
  rw [hd]
  simp

/-- Witness for C8: a destroyed spawner (health `0`, disabled) emits no
enemy-spawn request when its production timer fires. -/
theorem spawner_health_invariants_witness :
    (runSpawner { SpawnerState.spawn Vec2.zero with health := 0, disabled := true }
        [SpawnerOp.production true]).2 = [] :=
  spawner_health_invariants.2.2.2.2.1
    { SpawnerState.spawn Vec2.zero with health := 0, disabled := true }
    [SpawnerOp.production true] rfl

end BevyJam
